import Mathlib

/-!
Shallow embedding of the retrieval / web-search core of the
"Agentic Voice-to-Voice AI Assistant for Product Discovery" repository.

The definitions below are translated from `src/mcp/tools/web_search.py`,
`src/mcp/tools/rag_search.py`, `src/data/embedding.py`, `src/graph/graph.py`
and `src/ui/app.py`.  Machine floats of the Python source are modelled as
rationals (`ℚ`); Python exceptions are modelled with `Except String`;
network collaborators (Tavily, Rainforest, OpenAI, Chroma) are modelled as
explicit environment records passed to the functions that call them.
-/

deriving instance DecidableEq for Except

namespace ProductDiscovery

/-! ### Character classes used by the CPython `re` module and by
`urllib.parse` (ASCII fragment, sufficient for this development). -/

def isPyDigit (c : Char) : Bool := '0' ≤ c && c ≤ '9'

/-- Regex `\w` (ASCII fragment): letters, digits, underscore. -/
def isWordChar (c : Char) : Bool :=
  ('a' ≤ c && c ≤ 'z') || ('A' ≤ c && c ≤ 'Z') || isPyDigit c || c = '_'

/-- Regex `\s` / Python `str.strip` whitespace (ASCII fragment). -/
def isPySpace (c : Char) : Bool :=
  c = ' ' || c = '\t' || c = '\n' || c = '\r' || c = '\x0b' || c = '\x0c'

/-- Regex `[A-Z0-9]` under `re.IGNORECASE` (used by the ASIN patterns). -/
def isAsinChar (c : Char) : Bool :=
  ('a' ≤ c && c ≤ 'z') || ('A' ≤ c && c ≤ 'Z') || isPyDigit c

/-- Python `str.strip()` on both ends. -/
def pyStrip (s : String) : String :=
  String.mk (((s.toList.dropWhile isPySpace).reverse.dropWhile isPySpace).reverse)

/-- Python truthiness-based `a or b` on optional strings:
`None` and `""` fall through to `b`. -/
def pyOrStr (a b : Option String) : Option String :=
  match a with
  | some s => if s = "" then b else some s
  | none => b

/-- Python `suffix`-test `s.endswith(t)`. -/
def pyEndswith (s t : String) : Bool := t.toList.isSuffixOf s.toList

/-! ### Price extraction (`_PRICE_PATTERNS` / `_extract_price`)

The four compiled patterns of `web_search.py` are
  `\$\s*(\d+(?:\.\d{1,2})?)`,
  `\bUSD\s*(\d+(?:\.\d{1,2})?)\b`,
  `\b(\d+(?:\.\d{1,2})?)\s*USD\b`,
  `\b(\d+(?:\.\d{1,2})?)\s*(?:dollars|usd)\b`,
all with `re.IGNORECASE`.  Each matcher below implements `pattern.search`:
leftmost match wins, the numeric group is greedy, and the optional
fractional part backtracks (2 digits, then 1, then none) exactly where a
trailing `\b` or literal forces it to.  `float(...)` on the captured group
is modelled by exact rational evaluation of the digit string. -/

def digitsVal (ds : List Char) : ℕ :=
  ds.foldl (fun n c => 10 * n + (c.toNat - 48)) 0

/-- `10 ^ length`, written recursively so that kernel reduction is direct. -/
def fracDenom : List Char → ℕ
  | [] => 1
  | _ :: t => 10 * fracDenom t

/-- Value of `float(intDs ++ "." ++ fracDs)` as an exact rational. -/
def ratOfDigits (intDs fracDs : List Char) : ℚ :=
  mkRat (Int.ofNat (digitsVal intDs * fracDenom fracDs + digitsVal fracDs))
    (fracDenom fracDs)

/-- Word boundary `\b` immediately before a word character, given the
previous character (`none` at the start of the string). -/
def wordBoundaryBefore (prev : Option Char) : Bool :=
  match prev with
  | none => true
  | some c => !isWordChar c

/-- Word boundary `\b` immediately after a word character, given the rest
of the string. -/
def boundaryAfter (rest : List Char) : Bool :=
  match rest with
  | [] => true
  | c :: _ => !isWordChar c

/-- Match `(\d+(?:\.\d{1,2})?)` at the head of `s` and hand the captured
value and the remaining characters to `cont`, backtracking over the
optional fractional part in greedy order (two digits, one digit, none). -/
def matchNumThen (cont : ℚ → List Char → Option ℚ) (s : List Char) : Option ℚ :=
  let intDs := s.takeWhile isPyDigit
  if intDs.isEmpty then none
  else
    let rest := s.drop intDs.length
    (match rest with
      | '.' :: d1 :: d2 :: r =>
        if isPyDigit d1 && isPyDigit d2 then cont (ratOfDigits intDs [d1, d2]) r else none
      | _ => none).orElse fun _ =>
    (match rest with
      | '.' :: d1 :: r =>
        if isPyDigit d1 then cont (ratOfDigits intDs [d1]) r else none
      | _ => none).orElse fun _ =>
    cont (ratOfDigits intDs []) rest

/-- Case-insensitive literal: strip `lit` from the head of `s`. -/
def stripCaseLit : List Char → List Char → Option (List Char)
  | [], s => some s
  | _ :: _, [] => none
  | l :: ls, c :: cs => if c.toLower = l.toLower then stripCaseLit ls cs else none

/-- `\$\s*(\d+(?:\.\d{1,2})?)` at one position. -/
def matchDollar (_prev : Option Char) (s : List Char) : Option ℚ :=
  match s with
  | '$' :: r => matchNumThen (fun v _ => some v) (r.dropWhile isPySpace)
  | _ => none

/-- `\bUSD\s*(\d+(?:\.\d{1,2})?)\b` (IGNORECASE) at one position. -/
def matchUsdNum (prev : Option Char) (s : List Char) : Option ℚ :=
  if wordBoundaryBefore prev then
    match stripCaseLit ['u', 's', 'd'] s with
    | some r =>
      matchNumThen (fun v r2 => if boundaryAfter r2 then some v else none)
        (r.dropWhile isPySpace)
    | none => none
  else none

/-- `\b(\d+(?:\.\d{1,2})?)\s*USD\b` (IGNORECASE) at one position. -/
def matchNumUsd (prev : Option Char) (s : List Char) : Option ℚ :=
  if wordBoundaryBefore prev then
    matchNumThen
      (fun v r =>
        match stripCaseLit ['u', 's', 'd'] (r.dropWhile isPySpace) with
        | some r2 => if boundaryAfter r2 then some v else none
        | none => none) s
  else none

/-- `\b(\d+(?:\.\d{1,2})?)\s*(?:dollars|usd)\b` (IGNORECASE) at one
position; the alternation backtracks from `dollars` to `usd`. -/
def matchNumDollars (prev : Option Char) (s : List Char) : Option ℚ :=
  if wordBoundaryBefore prev then
    matchNumThen
      (fun v r =>
        let r1 := r.dropWhile isPySpace
        (match stripCaseLit ['d', 'o', 'l', 'l', 'a', 'r', 's'] r1 with
          | some r2 => if boundaryAfter r2 then some v else none
          | none => none).orElse fun _ =>
        match stripCaseLit ['u', 's', 'd'] r1 with
          | some r2 => if boundaryAfter r2 then some v else none
          | none => none) s
  else none

/-- `pattern.search`: try the matcher at every position, leftmost first,
tracking the previous character for `\b`. -/
def searchAux (m : Option Char → List Char → Option ℚ) :
    Option Char → List Char → Option ℚ
  | prev, [] => m prev []
  | prev, c :: r =>
    match m prev (c :: r) with
    | some v => some v
    | none => searchAux m (some c) r

def reSearch (m : Option Char → List Char → Option ℚ) (s : List Char) : Option ℚ :=
  searchAux m none s

/-- One iteration of the loop body of `_extract_price`: the leftmost match
of one pattern, kept only if its value lies in the open interval
`(0, 10000)` (otherwise the code falls through to the next pattern). -/
def tryPattern (m : Option Char → List Char → Option ℚ) (s : List Char) : Option ℚ :=
  match reSearch m s with
  | some v => if 0 < v ∧ v < 10000 then some v else none
  | none => none

/-- `_PRICE_PATTERNS` of `web_search.py`, in source order. -/
def _PRICE_PATTERNS : List (Option Char → List Char → Option ℚ) :=
  [matchDollar, matchUsdNum, matchNumUsd, matchNumDollars]

/-- The `for pat in _PRICE_PATTERNS` loop of `_extract_price`. -/
def extractLoop : List (Option Char → List Char → Option ℚ) → List Char → Option ℚ
  | [], _ => none
  | m :: ms, s =>
    match tryPattern m s with
    | some v => some v
    | none => extractLoop ms s

/-- `_extract_price` of `web_search.py` (`if not text: return None`, then
the pattern loop). -/
def _extract_price (text : String) : Option ℚ :=
  if text = "" then none else extractLoop _PRICE_PATTERNS text.toList

/-! ### `urllib.parse.urlparse` (the fragment used by `web_search.py`)

`urlparse(url).hostname` and `urlparse(url).path` are modelled for the
inputs the tool handles.  CPython's `urlsplit` raises
`ValueError("Invalid IPv6 URL")` when the network location contains an
unbalanced square bracket; that exception is modelled with
`Except String`, because it escapes the allegedly total normalizer
functions. -/

def isSchemeChar (c : Char) : Bool :=
  ('a' ≤ c && c ≤ 'z') || ('A' ≤ c && c ≤ 'Z') || isPyDigit c ||
  c = '+' || c = '-' || c = '.'

/-- Strip a valid `scheme:` prefix, as `urlsplit` does (first character
alphabetic, all characters before the colon scheme characters). -/
def splitScheme (s : List Char) : List Char :=
  let pre := s.takeWhile (fun c => !(c = ':'))
  if pre.length < s.length ∧ pre ≠ [] ∧
      (pre.headD ' ').isAlpha ∧ pre.all isSchemeChar then
    s.drop (pre.length + 1)
  else s

def isNetlocEnd (c : Char) : Bool := c = '/' || c = '?' || c = '#'

/-- The network location: present only after `//`, running to `/`, `?`
or `#`. -/
def netlocOf (s : List Char) : List Char :=
  match splitScheme s with
  | '/' :: '/' :: r => r.takeWhile (fun c => !isNetlocEnd c)
  | _ => []

/-- CPython's unbalanced-bracket test on the netloc (the condition under
which `urlsplit` raises `ValueError("Invalid IPv6 URL")`). -/
def netlocBad (n : List Char) : Bool :=
  (n.contains '[' && !(n.contains ']')) || (n.contains ']' && !(n.contains '['))

/-- `urlparse(url).hostname or ""`, lowercased (CPython lowercases the
hostname itself; `_matched_allowed_domain` lowercases it again). -/
def hostnameOf (s : List Char) : List Char :=
  let n := netlocOf s
  let hostinfo := (n.reverse.takeWhile (fun c => !(c = '@'))).reverse
  let h :=
    if hostinfo.contains '[' then
      ((hostinfo.dropWhile (fun c => !(c = '['))).drop 1).takeWhile (fun c => !(c = ']'))
    else hostinfo.takeWhile (fun c => !(c = ':'))
  h.map Char.toLower

def hostString (url : String) : String := String.mk (hostnameOf url.toList)

/-- `urlparse(url).path or ""`: the text between the netloc and the first
`?` or `#`, with `;parameters` split off the last segment as `urlparse`
does via `_splitparams`. -/
def pathOf (url : String) : String :=
  let rest :=
    match splitScheme url.toList with
    | '/' :: '/' :: r => r.dropWhile (fun c => !isNetlocEnd c)
    | other => other
  let p := rest.takeWhile (fun c => !(c = '?' || c = '#'))
  let withParams :=
    if p.contains ';' then
      if p.contains '/' then
        let seg := (p.reverse.takeWhile (fun c => !(c = '/'))).reverse
        if seg.contains ';' then
          p.take (p.length - seg.length) ++ seg.takeWhile (fun c => !(c = ';'))
        else p
      else p.takeWhile (fun c => !(c = ';'))
    else p
  String.mk withParams

/-! ### Domain allowlist and product-page detection -/

def ALLOWED_DOMAINS : List String := ["amazon.com", "walmart.com", "target.com"]

/-- `_matched_allowed_domain` of `web_search.py`.  The `Except` layer
carries the `ValueError` that `urlparse` raises on an unbalanced bracket
in the netloc.  The source's `hostname.lower()` is a no-op here because
`hostnameOf` (like CPython's `hostname` property) already lowercases. -/
def _matched_allowed_domain (url : String) : Except String (Option String) :=
  if netlocBad (netlocOf url.toList) then .error "Invalid IPv6 URL"
  else
    let hostname := hostString url
    .ok (ALLOWED_DOMAINS.find? fun allowed =>
      hostname = allowed || pyEndswith hostname ("." ++ allowed))

/-- `_is_allowed_domain` of `web_search.py`. -/
def _is_allowed_domain (url : String) : Except String Bool :=
  (_matched_allowed_domain url).map Option.isSome

/-- Search for `lit` (case-insensitive) followed by ten `[A-Z0-9]`
characters, returning the ten-character code: the shape shared by all
four Amazon `_PRODUCT_PATTERNS`. -/
def matchAsinAfter (lit : List Char) (s : List Char) : Option (List Char) :=
  match stripCaseLit lit s with
  | none => none
  | some r =>
    let code := r.take 10
    if code.length = 10 && code.all isAsinChar then some code else none

def searchLitAsin (lit : List Char) : List Char → Option (List Char)
  | [] => matchAsinAfter lit []
  | c :: r =>
    match matchAsinAfter lit (c :: r) with
    | some code => some code
    | none => searchLitAsin lit r

/-- The literal stems of `_PRODUCT_PATTERNS["amazon.com"]`, in source
order. -/
def amazonPatternStems : List (List Char) :=
  [('/' :: ['d', 'p', '/']),
   "/gp/product/".toList,
   "/gp/aw/d/".toList,
   "/gp/offer-listing/".toList]

/-- Case-insensitive substring test (`pattern.search` for a literal). -/
def containsLitCI (lit : List Char) : List Char → Bool
  | [] => (stripCaseLit lit []).isSome
  | c :: r => (stripCaseLit lit (c :: r)).isSome || containsLitCI lit r

/-- The second Target pattern (slash, dash, slash, `A-`, one or more
digits, IGNORECASE), tried at one position. -/
def matchTargetAAt (s : List Char) : Bool :=
  match stripCaseLit "/-/a-".toList s with
  | none => false
  | some r =>
    match r with
    | c :: _ => isPyDigit c
    | [] => false

def searchTargetA : List Char → Bool
  | [] => false
  | c :: r => matchTargetAAt (c :: r) || searchTargetA r

/-- `any(pat.search(path) for pat in _PRODUCT_PATTERNS[domain])`. -/
def productPatternsHit (domain : String) (path : List Char) : Bool :=
  if domain = "amazon.com" then
    amazonPatternStems.any fun lit => (searchLitAsin lit path).isSome
  else if domain = "walmart.com" then
    containsLitCI "/ip/".toList path || containsLitCI "/checkout/".toList path
  else if domain = "target.com" then
    containsLitCI "/p/".toList path || searchTargetA path
  else false

/-- `_is_product_page` of `web_search.py`. -/
def _is_product_page (url : String) : Except String Bool :=
  match _matched_allowed_domain url with
  | .error e => .error e
  | .ok none => .ok false
  | .ok (some allowed) => .ok (productPatternsHit allowed (pathOf url).toList)

/-- `_extract_asin` of `web_search.py`: the Amazon patterns searched over
the whole URL; `group(0).split("/")[-1]` is the ten-character code
because every pattern stem ends in `/`. -/
def _extract_asin (url : String) : Option String :=
  match amazonPatternStems.findSome? fun lit => searchLitAsin lit url.toList with
  | some code => some (String.mk code)
  | none => none

/-! ### Rainforest lookup and Tavily normalization

The Tavily and Rainforest network collaborators are modelled as fields of
a `WebEnv` record: `rfFetch` stands for the `requests.get(...).json()`
round-trip of `_rainforest_get_amazon_product` (returning `none` both for
a missing `product` object and for any caught network exception), and
`tavilySearch` stands for `TavilyClient(...).search(...)` (an `Except`
because any exception it raises is caught by `web_search`). -/

/-- The dict `{"title": ..., "price": ...}` built from the Rainforest
`product` object; `price` is `product["price"]["value"]` when present. -/
structure RfProduct where
  title : Option String
  price : Option ℚ
  deriving DecidableEq

/-- One raw Tavily hit (`it` in `_normalize_tavily_results`). -/
structure TavilyItem where
  title : Option String
  url : Option String
  content : Option String
  snippet : Option String
  score : Option ℚ
  deriving DecidableEq

/-- One entry of `allowed_candidates` (title/url/snippet stripped). -/
structure Candidate where
  title : String
  url : String
  snippet : String
  score : Option ℚ
  deriving DecidableEq

/-- One normalized result dict of `_normalize_single_result`. -/
structure WebResult where
  title : String
  url : String
  snippet : String
  price : Option ℚ
  score : Option ℚ
  deriving DecidableEq

/-- The module-level collaborators and credentials of `web_search.py`. -/
structure WebEnv where
  tavilyKey : Option String
  tavilyImport : Except String Unit
  tavilySearch : String → ℕ → Except String (Option (List TavilyItem))
  rainforestKey : Option String
  rfFetch : String → Option RfProduct

/-- `_rainforest_get_amazon_product` of `web_search.py`: `None` when the
API key or the ASIN is falsy, otherwise the (exception-swallowing)
network fetch. -/
def _rainforest_get_amazon_product (env : WebEnv) (asin : Option String) :
    Option RfProduct :=
  match env.rainforestKey, asin with
  | some k, some a => if k = "" ∨ a = "" then none else env.rfFetch a
  | _, _ => none

/-- Python `a or b` where `a` is an optional price: a price of exactly
`0` would be falsy, like `None` (`_extract_price` in fact never returns
`0`, but the embedding keeps the source's truthiness semantics). -/
def pyOrPrice (a b : Option ℚ) : Option ℚ :=
  match a with
  | some v => if v = 0 then b else some v
  | none => b

/-- `rf.get("title") or final_title`. -/
def rfTitleOr (t : Option String) (fallback : String) : String :=
  match t with
  | some s => if s = "" then fallback else s
  | none => fallback

/-- `price = _extract_price(title) or _extract_price(snippet)`, the first
line of `_normalize_single_result` (pure, so hoisting it into a separate
definition preserves the source's evaluation). -/
def extractedPrice (title snippet : String) : Option ℚ :=
  pyOrPrice (_extract_price title) (_extract_price snippet)

/-- `_normalize_single_result` of `web_search.py`.  For an `amazon.com`
URL the Rainforest lookup runs whenever it is configured and an ASIN is
found, and on success its `title`/`price` replace the extracted ones. -/
def _normalize_single_result (env : WebEnv) (title url snippet : String)
    (score : Option ℚ) : Except String WebResult :=
  match _matched_allowed_domain url with
  | .error e => .error e
  | .ok domain =>
    if domain = some "amazon.com" then
      match _rainforest_get_amazon_product env (_extract_asin url) with
      | some rf =>
        .ok { title := rfTitleOr rf.title title, url := url, snippet := snippet,
              price := rf.price, score := score }
      | none =>
        .ok { title := title, url := url, snippet := snippet,
              price := extractedPrice title snippet, score := score }
    else
      .ok { title := title, url := url, snippet := snippet,
            price := extractedPrice title snippet, score := score }

/-- The stripped fields read off one raw Tavily hit at the top of the
loop of `_normalize_tavily_results`. -/
def candOf (it : TavilyItem) : Candidate :=
  { title := pyStrip (it.title.getD "")
    url := pyStrip (it.url.getD "")
    snippet := pyStrip ((pyOrStr it.content it.snippet).getD "")
    score := it.score }

/-- The main loop of `_normalize_tavily_results`: returns the pair
(`normalized`, `allowed_candidates`). -/
def normLoop (env : WebEnv) : List TavilyItem →
    Except String (List WebResult × List Candidate)
  | [] => .ok ([], [])
  | it :: rest =>
    match _is_allowed_domain (candOf it).url with
    | .error e => .error e
    | .ok false => normLoop env rest
    | .ok true =>
      match _is_product_page (candOf it).url with
      | .error e => .error e
      | .ok false =>
        match normLoop env rest with
        | .error e => .error e
        | .ok (ns, cs) => .ok (ns, candOf it :: cs)
      | .ok true =>
        match _normalize_single_result env (candOf it).title (candOf it).url
            (candOf it).snippet (candOf it).score with
        | .error e => .error e
        | .ok r =>
          match normLoop env rest with
          | .error e => .error e
          | .ok (ns, cs) => .ok (r :: ns, candOf it :: cs)

/-- The fallback loop of `_normalize_tavily_results` (run when no page
passed product detection): normalize every allowed candidate. -/
def normFallback (env : WebEnv) : List Candidate → Except String (List WebResult)
  | [] => .ok []
  | c :: rest =>
    match _normalize_single_result env c.title c.url c.snippet c.score with
    | .error e => .error e
    | .ok r =>
      match normFallback env rest with
      | .error e => .error e
      | .ok rs => .ok (r :: rs)

/-- `_normalize_tavily_results` of `web_search.py`
(`raw.get("results") or []`, truncated to `top_k`). -/
def _normalize_tavily_results (env : WebEnv) (raw : Option (List TavilyItem))
    (top_k : ℕ) : Except String (List WebResult) :=
  match normLoop env ((raw.getD []).take top_k) with
  | .error e => .error e
  | .ok pair =>
    if pair.1.isEmpty then normFallback env pair.2 else .ok pair.1

/-- The stable JSON response shape of the web-search tool. -/
structure WebResponse where
  query : String
  results : List WebResult
  error : Option String
  deriving DecidableEq

/-- `web_search` of `web_search.py`.  Every exception raised inside the
`try` block (Tavily client, normalization, `urlparse`) is caught and
converted to an error response; the modelled function is total. -/
def web_search (env : WebEnv) (query : String) (top_k : ℕ) : WebResponse :=
  if query = "" then { query := query, results := [], error := none }
  else if env.tavilyKey.getD "" = "" then
    { query := query, results := [], error := some "WEB_SEARCH_API_KEY not set" }
  else
    match env.tavilyImport with
    | .error e =>
      { query := query, results := [], error := some ("tavily import error: " ++ e) }
    | .ok _ =>
      match env.tavilySearch query top_k with
      | .error e => { query := query, results := [], error := some e }
      | .ok raw =>
        match _normalize_tavily_results env raw top_k with
        | .error e => { query := query, results := [], error := some e }
        | .ok results => { query := query, results := results, error := none }

/-! ### Catalog (RAG) search adapter

From `src/mcp/tools/rag_search.py` and `src/data/embedding.py`.  The
Chroma client, the OpenAI embeddings call and the Chroma query are
network/disk collaborators, modelled as fields of `RagEnv`; each is an
`Except` because an exception it raises propagates out of `rag_search`
(nothing in `rag_search` catches). -/

/-- One metadata dict stored in the Chroma index. -/
structure ChromaMeta where
  product_id : Option String
  title : Option String
  price : Option ℚ
  url : Option String
  deriving DecidableEq

/-- The raw dict returned by `chroma_collection.query()`. -/
structure ChromaRaw where
  ids : Option (List (List String))
  documents : Option (List (List String))
  metadatas : Option (List (List ChromaMeta))
  distances : Option (List (List ℚ))
  deriving DecidableEq

/-- One flattened product dict of `_flatten_results`. -/
structure RagResult where
  id : String
  title : Option String
  price : Option ℚ
  url : Option String
  score : Option ℚ
  source : String
  deriving DecidableEq

/-- The empty metadata dict `{}` used when `i >= len(metas)`. -/
def emptyMeta : ChromaMeta := { product_id := none, title := none, price := none, url := none }

/-- `max(0.0, 1.0 - distance)`. -/
def scoreOfDistance (d : ℚ) : ℚ := max 0 (1 - d)

/-- The inner loop of `_flatten_results` over one batch: `ids` is the
batch of ids, `docs`/`metas`/`dists` the parallel (possibly shorter)
batches. -/
def flattenBatch (ids docs : List String) (metas : List ChromaMeta)
    (dists : List ℚ) : List RagResult :=
  (List.range ids.length).map fun i =>
    let meta := metas.getD i emptyMeta
    let distance := dists.get? i
    { id :=
        match pyOrStr meta.product_id (some (ids.getD i "")) with
        | some s => s
        | none => ""
      title := pyOrStr meta.title (docs.get? i)
      price := meta.price
      url := meta.url
      score :=
        match distance with
        | none => none
        | some d => some (scoreOfDistance d)
      source := "rag" }

/-- `_flatten_results` of `rag_search.py`.  The outer loop indexes
`docs_batches[batch_idx]` (and metas/dists) without a bounds guard, so a
response with fewer document batches than id batches raises `IndexError`
in the source; the model returns that error. -/
def _flatten_results (raw : ChromaRaw) : Except String (List RagResult) :=
  let idsBatches := raw.ids.getD []
  let docsBatches := raw.documents.getD []
  let metasBatches := raw.metadatas.getD []
  let distsBatches := raw.distances.getD []
  if idsBatches.isEmpty then .ok []
  else
    (List.range idsBatches.length).foldr
      (fun batchIdx acc =>
        match docsBatches.get? batchIdx, metasBatches.get? batchIdx,
            distsBatches.get? batchIdx with
        | some docs, some metas, some dists =>
          match acc with
          | .error e => .error e
          | .ok rs =>
            .ok (flattenBatch (idsBatches.getD batchIdx []) docs metas dists ++ rs)
        | _, _, _ => .error "IndexError: list index out of range")
      (.ok [])

/-- `get_openai_client` of `embedding.py`: raises `EnvironmentError` when
`OPENAI_API_KEY` is unset (or empty, which is falsy). -/
def get_openai_client (apiKey : Option String) : Except String Unit :=
  match apiKey with
  | none => .error "OPENAI_API_KEY must be set"
  | some k => if k = "" then .error "OPENAI_API_KEY must be set" else .ok ()

/-- The response dict of `rag_search`. -/
structure RagResponse where
  query : String
  results : List RagResult
  deriving DecidableEq

/-- The collaborators and credentials reached from `rag_search`. -/
structure RagEnv where
  openaiKey : Option String
  chromaInit : Except String Unit
  embed : String → Except String (List ℚ)
  chromaQuery : List ℚ → ℕ → Except String ChromaRaw

/-- `rag_search` of `rag_search.py`: empty queries short-circuit before
any collaborator is touched; afterwards the Chroma client is created,
the OpenAI client is checked (raising mid-query when the key is
missing), the query is embedded, and the index is queried. -/
def rag_search (env : RagEnv) (query : String) (top_k : ℕ) :
    Except String RagResponse :=
  if query = "" then .ok { query := query, results := [] }
  else
    match env.chromaInit with
    | .error e => .error e
    | .ok _ =>
      match get_openai_client env.openaiKey with
      | .error e => .error e
      | .ok _ =>
        match env.embed query with
        | .error e => .error e
        | .ok emb =>
          match env.chromaQuery emb top_k with
          | .error e => .error e
          | .ok raw =>
            match _flatten_results raw with
            | .error e => .error e
            | .ok results => .ok { query := query, results := results }

/-! ### Pipeline control flow

From `src/graph/graph.py` (`should_continue_after_router`) and
`src/ui/app.py` (`run_agent`).  The four node implementations live in
`src/graph/nodes.py`, which is not part of the repository snapshot; the
nodes are therefore opaque state transformers passed as arguments, and
`run_agent` is modelled as the sequencing logic of `app.py` over them. -/

/-- The fields of `ConversationState` that the sequencing logic reads. -/
structure ConvState where
  userQuery : String
  intentType : Option String
  nodeLogs : List String
  deriving DecidableEq

/-- The initial state dict built by `run_agent` (its `intent` is `{}`,
whose `.get("type")` is `None`). -/
def initState (query : String) : ConvState :=
  { userQuery := query, intentType := none, nodeLogs := [] }

/-- `should_continue_after_router` of `graph.py`. -/
def should_continue_after_router (state : ConvState) : String :=
  if state.intentType = some "out_of_scope" then "end" else "continue"

/-- The node-sequencing logic of `run_agent` in `app.py`: Router first;
Planner, Retriever and Answerer only when the routed intent type is not
`out_of_scope`. -/
def run_agent (router planner retriever answerer : ConvState → ConvState)
    (query : String) : ConvState :=
  let s1 := router (initState query)
  if s1.intentType ≠ some "out_of_scope" then answerer (retriever (planner s1))
  else s1

/-! ### Concrete fixtures used by witnesses and counterexamples -/

/-- An environment with no Rainforest key (the lookup collaborator is
never consulted) and a trivial Tavily collaborator. -/
def env0 : WebEnv :=
  { tavilyKey := some "k"
    tavilyImport := .ok ()
    tavilySearch := fun _ _ => .ok none
    rainforestKey := none
    rfFetch := fun _ => none }

/-- An environment whose Rainforest collaborator answers ASIN
`B012345678` with title `"RF Title"` and price `999`. -/
def envRf : WebEnv :=
  { env0 with
    rainforestKey := some "RFKEY"
    rfFetch := fun a =>
      if a = "B012345678" then some { title := some "RF Title", price := some 999 }
      else none }

/-- An environment whose Rainforest collaborator reports price `15000`
(outside the regex extractor's accepted interval). -/
def envRfBig : WebEnv :=
  { env0 with
    rainforestKey := some "RFKEY"
    rfFetch := fun a =>
      if a = "B012345678" then some { title := some "RF Title", price := some 15000 }
      else none }

/-- An environment with the web-search API key unset. -/
def envNoKey : WebEnv := { env0 with tavilyKey := none }

/-- A RAG environment with healthy collaborators but no OpenAI key. -/
def ragEnvNoKey : RagEnv :=
  { openaiKey := none
    chromaInit := .ok ()
    embed := fun _ => .ok []
    chromaQuery := fun _ _ =>
      .ok { ids := some [], documents := some [], metadatas := some [],
            distances := some [] } }

def amazonUrl : String := "https://www.amazon.com/dp/B012345678"

def walmartBrowseUrl : String := "https://www.walmart.com/browse/cleaning"

/-- A Tavily hit on an Amazon product page. -/
def itemAmazon : TavilyItem :=
  { title := some "Amazon Item", url := some amazonUrl,
    content := some "great", snippet := none, score := some 1 }

/-- A Tavily hit on an allowed Walmart page that is not a product page. -/
def itemWalmartBrowse : TavilyItem :=
  { title := some "Walmart Browse", url := some walmartBrowseUrl,
    content := some "stuff", snippet := none, score := some 2 }

/-- The normalized result of `itemAmazon` under `env0`. -/
def resAmazon : WebResult :=
  { title := "Amazon Item", url := amazonUrl, snippet := "great",
    price := none, score := some 1 }

/-- The normalized result of `itemWalmartBrowse` under `env0`. -/
def resWalmart : WebResult :=
  { title := "Walmart Browse", url := walmartBrowseUrl, snippet := "stuff",
    price := none, score := some 2 }

/-- The normalized result of `itemAmazon` under `envRfBig`. -/
def resRfBig : WebResult :=
  { title := "RF Title", url := amazonUrl, snippet := "great",
    price := some 15000, score := some 1 }

/-! ### Helper lemmas -/

theorem tryPattern_bound {m : Option Char → List Char → Option ℚ}
    {s : List Char} {p : ℚ} (h : tryPattern m s = some p) :
    0 < p ∧ p < 10000 := by
  unfold tryPattern at h
  split at h
  · split at h
    · cases h; assumption
    · exact absurd h (by simp)
  · exact absurd h (by simp)

theorem extractLoop_bound {ms : List (Option Char → List Char → Option ℚ)}
    {s : List Char} {p : ℚ} (h : extractLoop ms s = some p) :
    0 < p ∧ p < 10000 := by
  induction ms with
  | nil => exact absurd h (by simp [extractLoop])
  | cons m ms ih =>
    unfold extractLoop at h
    split at h
    · cases h; exact tryPattern_bound (by assumption)
    · exact ih h

theorem extract_price_bound {t : String} {p : ℚ}
    (h : _extract_price t = some p) : 0 < p ∧ p < 10000 := by
  unfold _extract_price at h
  split at h
  · exact absurd h (by simp)
  · exact extractLoop_bound h

theorem extractedPrice_bound {t s : String} {p : ℚ}
    (h : extractedPrice t s = some p) : 0 < p ∧ p < 10000 := by
  unfold extractedPrice pyOrPrice at h
  split at h
  · rename_i v hv
    split at h
    · exact extract_price_bound h
    · cases h; exact extract_price_bound hv
  · exact extract_price_bound h

theorem normalize_single_url {env : WebEnv} {t u s : String} {sc : Option ℚ}
    {r : WebResult} (h : _normalize_single_result env t u s sc = .ok r) :
    r.url = u := by
  unfold _normalize_single_result at h
  split at h
  · exact absurd h (by simp)
  · split at h
    · split at h
      · cases h; rfl
      · cases h; rfl
    · cases h; rfl

theorem normalize_single_price {env : WebEnv} {t u s : String} {sc : Option ℚ}
    {r : WebResult} (h : _normalize_single_result env t u s sc = .ok r) :
    r.price = none ∨ (∃ p, r.price = some p ∧ 0 < p ∧ p < 10000) ∨
      (∃ rf, _rainforest_get_amazon_product env (_extract_asin u) = some rf ∧
        r.price = rf.price) := by
  have hbase : ∀ {r2 : WebResult}, r2.price = extractedPrice t s →
      r2.price = none ∨ (∃ p, r2.price = some p ∧ 0 < p ∧ p < 10000) ∨
        (∃ rf, _rainforest_get_amazon_product env (_extract_asin u) = some rf ∧
          r2.price = rf.price) := by
    intro r2 hp
    cases hpp : extractedPrice t s with
    | none => exact Or.inl (hp.trans hpp)
    | some p =>
      exact Or.inr (Or.inl ⟨p, hp.trans hpp, extractedPrice_bound hpp⟩)
  unfold _normalize_single_result at h
  split at h
  · exact absurd h (by simp)
  · split at h
    · split at h
      · rename_i rf hrf
        cases h
        exact Or.inr (Or.inr ⟨rf, hrf, rfl⟩)
      · cases h; exact hbase rfl
    · cases h; exact hbase rfl

theorem normLoop_cands_allowed {env : WebEnv} {items : List TavilyItem}
    {ns : List WebResult} {cs : List Candidate}
    (h : normLoop env items = .ok (ns, cs)) :
    ∀ c ∈ cs, _is_allowed_domain c.url = .ok true := by
  induction items generalizing ns cs with
  | nil =>
    unfold normLoop at h
    cases h
    intro c hc
    cases hc
  | cons it rest ih =>
    unfold normLoop at h
    split at h
    · cases h
    · exact ih h
    · rename_i hA
      split at h
      · cases h
      · split at h
        · cases h
        · rename_i hrest
          cases h
          intro c hc
          cases hc with
          | head => exact hA
          | tail _ hc2 => exact ih hrest c hc2
      · split at h
        · cases h
        · split at h
          · cases h
          · rename_i hrest
            cases h
            intro c hc
            cases hc with
            | head => exact hA
            | tail _ hc2 => exact ih hrest c hc2

theorem normLoop_mem_ns {env : WebEnv} {items : List TavilyItem}
    {ns : List WebResult} {cs : List Candidate}
    (h : normLoop env items = .ok (ns, cs)) :
    ∀ r ∈ ns, ∃ c, c ∈ cs ∧ _is_product_page c.url = .ok true ∧
      _normalize_single_result env c.title c.url c.snippet c.score = .ok r := by
  induction items generalizing ns cs with
  | nil =>
    unfold normLoop at h
    cases h
    intro r hr
    cases hr
  | cons it rest ih =>
    unfold normLoop at h
    split at h
    · cases h
    · exact ih h
    · split at h
      · cases h
      · split at h
        · cases h
        · rename_i hrest
          cases h
          intro r hr
          obtain ⟨c, hc, hp, hn⟩ := ih hrest r hr
          exact ⟨c, List.mem_cons_of_mem _ hc, hp, hn⟩
      · rename_i hP
        split at h
        · cases h
        · rename_i hN
          split at h
          · cases h
          · rename_i hrest
            cases h
            intro r hr
            cases hr with
            | head => exact ⟨candOf it, List.mem_cons_self _ _, hP, hN⟩
            | tail _ hr2 =>
              obtain ⟨c, hc, hp, hn⟩ := ih hrest r hr2
              exact ⟨c, List.mem_cons_of_mem _ hc, hp, hn⟩

theorem normLoop_cand_mem {env : WebEnv} {items : List TavilyItem}
    {ns : List WebResult} {cs : List Candidate}
    (h : normLoop env items = .ok (ns, cs)) :
    ∀ it ∈ items, _is_allowed_domain (candOf it).url = .ok true →
      candOf it ∈ cs := by
  induction items generalizing ns cs with
  | nil =>
    intro it hit
    cases hit
  | cons it0 rest ih =>
    unfold normLoop at h
    split at h
    · cases h
    · rename_i hA0
      intro it hit hA
      cases hit with
      | head => rw [hA] at hA0; cases hA0
      | tail _ hit2 => exact ih h it hit2 hA
    · split at h
      · cases h
      · split at h
        · cases h
        · rename_i hrest
          cases h
          intro it hit hA
          cases hit with
          | head => exact List.mem_cons_self _ _
          | tail _ hit2 => exact List.mem_cons_of_mem _ (ih hrest it hit2 hA)
      · split at h
        · cases h
        · split at h
          · cases h
          · rename_i hrest
            cases h
            intro it hit hA
            cases hit with
            | head => exact List.mem_cons_self _ _
            | tail _ hit2 => exact List.mem_cons_of_mem _ (ih hrest it hit2 hA)

theorem normLoop_ns_nil_iff {env : WebEnv} {items : List TavilyItem}
    {ns : List WebResult} {cs : List Candidate}
    (h : normLoop env items = .ok (ns, cs)) :
    ns = [] ↔ ∀ it ∈ items,
      ¬(_is_allowed_domain (candOf it).url = .ok true ∧
        _is_product_page (candOf it).url = .ok true) := by
  induction items generalizing ns cs with
  | nil =>
    unfold normLoop at h
    cases h
    simp
  | cons it0 rest ih =>
    unfold normLoop at h
    split at h
    · cases h
    · rename_i hA0
      rw [ih h]
      constructor
      · intro hall it hit
        cases hit with
        | head =>
          intro ⟨hA, _⟩
          rw [hA] at hA0; cases hA0
        | tail _ hit2 => exact hall it hit2
      · intro hall it hit
        exact hall it (List.mem_cons_of_mem _ hit)
    · rename_i hA0
      split at h
      · cases h
      · rename_i hP0
        split at h
        · cases h
        · rename_i hrest
          cases h
          rw [ih hrest]
          constructor
          · intro hall it hit
            cases hit with
            | head =>
              intro ⟨_, hP⟩
              rw [hP] at hP0; cases hP0
            | tail _ hit2 => exact hall it hit2
          · intro hall it hit
            exact hall it (List.mem_cons_of_mem _ hit)
      · rename_i hP0
        split at h
        · cases h
        · split at h
          · cases h
          · cases h
            constructor
            · intro hnil; cases hnil
            · intro hall
              exact absurd ⟨hA0, hP0⟩ (hall it0 (List.mem_cons_self _ _))

theorem normFallback_mem {env : WebEnv} {cs : List Candidate}
    {rs : List WebResult} (h : normFallback env cs = .ok rs) :
    ∀ r ∈ rs, ∃ c, c ∈ cs ∧
      _normalize_single_result env c.title c.url c.snippet c.score = .ok r := by
  induction cs generalizing rs with
  | nil =>
    unfold normFallback at h
    cases h
    intro r hr
    cases hr
  | cons c rest ih =>
    unfold normFallback at h
    split at h
    · cases h
    · rename_i hN
      split at h
      · cases h
      · rename_i hrest
        cases h
        intro r hr
        cases hr with
        | head => exact ⟨c, List.mem_cons_self _ _, hN⟩
        | tail _ hr2 =>
          obtain ⟨c2, hc2, hn2⟩ := ih hrest r hr2
          exact ⟨c2, List.mem_cons_of_mem _ hc2, hn2⟩

theorem normFallback_complete {env : WebEnv} {cs : List Candidate}
    {rs : List WebResult} (h : normFallback env cs = .ok rs) :
    ∀ c ∈ cs, ∃ r, r ∈ rs ∧
      _normalize_single_result env c.title c.url c.snippet c.score = .ok r := by
  induction cs generalizing rs with
  | nil =>
    intro c hc
    cases hc
  | cons c0 rest ih =>
    unfold normFallback at h
    split at h
    · cases h
    · rename_i hN
      split at h
      · cases h
      · rename_i hrest
        cases h
        intro c hc
        cases hc with
        | head => exact ⟨_, List.mem_cons_self _ _, hN⟩
        | tail _ hc2 =>
          obtain ⟨r, hr, hn⟩ := ih hrest c hc2
          exact ⟨r, List.mem_cons_of_mem _ hr, hn⟩

/-- Every result of `_normalize_tavily_results` is the
`_normalize_single_result` of some candidate whose URL passed the domain
filter. -/
theorem mem_results_origin {env : WebEnv} {raw : Option (List TavilyItem)}
    {k : ℕ} {res : List WebResult} {r : WebResult}
    (h : _normalize_tavily_results env raw k = .ok res) (hr : r ∈ res) :
    ∃ c : Candidate, _is_allowed_domain c.url = .ok true ∧
      _normalize_single_result env c.title c.url c.snippet c.score = .ok r := by
  unfold _normalize_tavily_results at h
  split at h
  · cases h
  · rename_i pair hL
    obtain ⟨ns, cs⟩ := pair
    split at h
    · obtain ⟨c, hc, hn⟩ := normFallback_mem h r hr
      exact ⟨c, normLoop_cands_allowed hL c hc, hn⟩
    · cases h
      obtain ⟨c, hc, _, hn⟩ := normLoop_mem_ns hL r hr
      exact ⟨c, normLoop_cands_allowed hL c hc, hn⟩

/-! ### Claim theorems -/

/-- C1, counterexample: in the source the fallback pool is global, not
per-domain.  With one Amazon hit that passes product-page detection and
one Walmart hit on an allowed domain that fails it, no Walmart page
passes detection, yet the Walmart page is not returned — the claim's
per-domain fallback would have returned it. -/
theorem c1_fallback_counterexample :
    _is_allowed_domain walmartBrowseUrl = .ok true ∧
    _is_product_page walmartBrowseUrl = .ok false ∧
    (¬ ∃ it2 ∈ [itemAmazon, itemWalmartBrowse],
        _matched_allowed_domain (candOf it2).url = .ok (some "walmart.com") ∧
        _is_product_page (candOf it2).url = .ok true) ∧
    _normalize_tavily_results env0 (some [itemAmazon, itemWalmartBrowse]) 5 =
      .ok [resAmazon] ∧
    resAmazon.url ≠ walmartBrowseUrl := by decide

/-- C1 (amended): the fallback pool applies globally across domains: an
allowed-domain hit that fails product-page detection appears in the
normalized results exactly when no processed hit on any allowed domain
passes detection for the query. -/
theorem c1_fallback_global_amended (env : WebEnv)
    (raw : Option (List TavilyItem)) (k : ℕ) (res : List WebResult)
    (it : TavilyItem) (h : _normalize_tavily_results env raw k = .ok res)
    (hit : it ∈ (raw.getD []).take k)
    (hA : _is_allowed_domain (candOf it).url = .ok true)
    (hP : _is_product_page (candOf it).url = .ok false) :
    (∃ r ∈ res, r.url = (candOf it).url) ↔
      ¬ ∃ it2 ∈ (raw.getD []).take k,
        _is_allowed_domain (candOf it2).url = .ok true ∧
        _is_product_page (candOf it2).url = .ok true := by
  unfold _normalize_tavily_results at h
  split at h
  · cases h
  · rename_i pair hL
    obtain ⟨ns, cs⟩ := pair
    split at h
    · rename_i hEmpty
      have hnil : ns = [] := by
        cases ns with
        | nil => rfl
        | cons a l => simp at hEmpty
      have hno := (normLoop_ns_nil_iff hL).mp hnil
      constructor
      · intro _
        rintro ⟨it2, hit2, hA2, hP2⟩
        exact hno it2 hit2 ⟨hA2, hP2⟩
      · intro _
        obtain ⟨r, hr, hn⟩ :=
          normFallback_complete h (candOf it) (normLoop_cand_mem hL it hit hA)
        exact ⟨r, hr, normalize_single_url hn⟩
    · rename_i hEmpty
      cases h
      have hnonnil : ns ≠ [] := by
        intro hn
        rw [hn] at hEmpty
        simp at hEmpty
      constructor
      · rintro ⟨r, hr, hurl⟩
        exfalso
        obtain ⟨c, hc, hPc, hnc⟩ := normLoop_mem_ns hL r hr
        have hcu : c.url = (candOf it).url :=
          (normalize_single_url hnc).symm.trans hurl
        rw [hcu] at hPc
        have hcontra := hP.symm.trans hPc
        simp at hcontra
      · intro hno
        exfalso
        apply hnonnil
        apply (normLoop_ns_nil_iff hL).mpr
        intro it2 hit2 hpass
        exact hno ⟨it2, hit2, hpass⟩

/-- C1 witness: in a response whose only allowed hit is a failing
Walmart page, the fallback returns it, instantiating the amended
equivalence. -/
theorem c1_fallback_global_witness :
    (_normalize_tavily_results env0 (some [itemWalmartBrowse]) 5 =
        .ok [resWalmart] ∧
      itemWalmartBrowse ∈
        ((some [itemWalmartBrowse] : Option (List TavilyItem)).getD []).take 5 ∧
      _is_allowed_domain (candOf itemWalmartBrowse).url = .ok true ∧
      _is_product_page (candOf itemWalmartBrowse).url = .ok false) ∧
    ((∃ r ∈ [resWalmart], r.url = (candOf itemWalmartBrowse).url) ↔
      ¬ ∃ it2 ∈ ((some [itemWalmartBrowse] : Option (List TavilyItem)).getD []).take 5,
        _is_allowed_domain (candOf it2).url = .ok true ∧
        _is_product_page (candOf it2).url = .ok true) :=
  ⟨⟨by decide, by decide, by decide, by decide⟩,
    c1_fallback_global_amended env0 (some [itemWalmartBrowse]) 5 [resWalmart]
      itemWalmartBrowse (by decide) (by decide) (by decide) (by decide)⟩

/-- C2, code bug: for an amazon.com result the Rainforest lookup runs
even though a price was already extracted from the title, and its result
replaces the extracted `12.99` with the lookup's `999` — contradicting
the claim (and the module docstring, which calls the lookup a fallback
for results with no price). -/
theorem c2_price_overwrite_bug :
    _extract_price "Gadget $12.99 deal" = some (mkRat 1299 100) ∧
    (0 < mkRat 1299 100 ∧ mkRat 1299 100 < 10000) ∧
    _extract_asin amazonUrl = some "B012345678" ∧
    _normalize_single_result envRf "Gadget $12.99 deal" amazonUrl "" none =
      .ok { title := "RF Title", url := amazonUrl, snippet := "",
            price := some 999, score := none } ∧
    (999 : ℚ) ≠ mkRat 1299 100 := by decide

/-- C3: the domain filter accepts only by parsed-hostname equality or
proper-subdomain suffix (never substring); every normalized web result's
URL passes the filter; and the adversarial host
`amazon.com.evil.tld` is rejected. -/
theorem c3_domain_filter :
    (∀ url d, _matched_allowed_domain url = .ok (some d) →
      d ∈ ALLOWED_DOMAINS ∧
        (hostString url = d ∨ pyEndswith (hostString url) ("." ++ d) = true)) ∧
    (∀ (env : WebEnv) (raw : Option (List TavilyItem)) (k : ℕ)
        (res : List WebResult) (r : WebResult),
      _normalize_tavily_results env raw k = .ok res → r ∈ res →
        _is_allowed_domain r.url = .ok true) ∧
    _matched_allowed_domain "https://amazon.com.evil.tld/dp/B012345678" =
      .ok none := by
  refine ⟨?_, ?_, by decide⟩
  · intro url d h
    unfold _matched_allowed_domain at h
    split at h
    · cases h
    · injection h with h2
      refine ⟨List.mem_of_find?_eq_some h2, ?_⟩
      have hp := List.find?_some h2
      simp only [Bool.or_eq_true, decide_eq_true_eq] at hp
      exact hp
  · intro env raw k res r h hr
    obtain ⟨c, hA, hn⟩ := mem_results_origin h hr
    rw [normalize_single_url hn]
    exact hA

/-- C3 witness: the filter's characterization and the results-level
guarantee instantiated on a concrete Amazon page. -/
theorem c3_domain_filter_witness :
    ("amazon.com" ∈ ALLOWED_DOMAINS ∧
      (hostString amazonUrl = "amazon.com" ∨
        pyEndswith (hostString amazonUrl) ("." ++ "amazon.com") = true)) ∧
    _is_allowed_domain resAmazon.url = .ok true :=
  ⟨c3_domain_filter.1 amazonUrl "amazon.com" (by decide),
    c3_domain_filter.2.1 env0 (some [itemAmazon]) 5 [resAmazon] resAmazon
      (by decide) (by decide)⟩

/-- C4: the price extractor meets the spec's test vectors; `$15000` is
matched by the dollar pattern but rejected by the `(0, 10000)` bound. -/
theorem c4_extract_price_vectors :
    _extract_price "$12.99" = some (mkRat 1299 100) ∧
    _extract_price "USD 12" = some 12 ∧
    _extract_price "free shipping" = none ∧
    _extract_price "$15000" = none ∧
    reSearch matchDollar ("$15000".toList) = some 15000 ∧
    ¬((15000 : ℚ) < 10000) := by decide

/-- C5, counterexample: a price delivered by the Rainforest lookup is not
bound-checked; with a lookup answering `15000` the normalized result
carries price `15000`, outside `(0, 10000)`. -/
theorem c5_price_bound_counterexample :
    _normalize_tavily_results envRfBig (some [itemAmazon]) 5 = .ok [resRfBig] ∧
    resRfBig.price = some 15000 ∧
    ¬((15000 : ℚ) < 10000) := by decide

/-- C5 (amended): a normalized result's price is absent, or lies in
`(0, 10000)` when it came from regex extraction; a price that came from
the authoritative Rainforest lookup is passed through unchecked. -/
theorem c5_price_bound_amended (env : WebEnv) (raw : Option (List TavilyItem))
    (k : ℕ) (res : List WebResult) (r : WebResult)
    (h : _normalize_tavily_results env raw k = .ok res) (hr : r ∈ res) :
    r.price = none ∨ (∃ p, r.price = some p ∧ 0 < p ∧ p < 10000) ∨
      (∃ rf, _rainforest_get_amazon_product env (_extract_asin r.url) = some rf ∧
        r.price = rf.price) := by
  obtain ⟨c, hA, hn⟩ := mem_results_origin h hr
  rw [normalize_single_url hn]
  exact normalize_single_price hn

/-- C5 witness: the amended trichotomy instantiated on the
out-of-bounds Rainforest price. -/
theorem c5_price_bound_witness :
    resRfBig.price = none ∨
      (∃ p, resRfBig.price = some p ∧ 0 < p ∧ p < 10000) ∨
      (∃ rf, _rainforest_get_amazon_product envRfBig (_extract_asin resRfBig.url) =
          some rf ∧ resRfBig.price = rf.price) :=
  c5_price_bound_amended envRfBig (some [itemAmazon]) 5 [resRfBig] resRfBig
    (by decide) (by decide)

/-- C6, code bug: the domain-based normalizer functions are not total.
On the URL `"http://["` (unbalanced bracket in the authority part)
CPython's `urlparse` raises `ValueError("Invalid IPv6 URL")`, which
escapes `_is_allowed_domain` and `_is_product_page`; the claim says they
return `False` normally on unparsable input.  The price and item-code
extractors do return normally on the same input. -/
theorem c6_totality_bug :
    _is_allowed_domain "http://[" = .error "Invalid IPv6 URL" ∧
    _is_product_page "http://[" = .error "Invalid IPv6 URL" ∧
    _extract_price "http://[" = none ∧
    _extract_asin "http://[" = none := by decide

/-- C7: for every environment (including failing collaborators), query
and `top_k`, the web-search response has a null error or an empty results
list; since the modelled `web_search` is a total function, the contract
that it never raises holds by construction. -/
theorem c7_error_implies_empty_results (env : WebEnv) (q : String) (k : ℕ) :
    (web_search env q k).error = none ∨ (web_search env q k).results = [] := by
  unfold web_search
  split
  · exact Or.inl rfl
  · split
    · exact Or.inr rfl
    · split
      · exact Or.inr rfl
      · split
        · exact Or.inr rfl
        · split
          · exact Or.inr rfl
          · exact Or.inl rfl

/-- C8, counterexample: missing credentials are discovered per query,
not at startup: with the web-search key unset, `web_search` returns a
per-query error response, and with the embedding key unset, `rag_search`
raises `EnvironmentError` mid-query. -/
theorem c8_midquery_counterexample :
    web_search envNoKey "laptop" 5 =
      { query := "laptop", results := [],
        error := some "WEB_SEARCH_API_KEY not set" } ∧
    rag_search ragEnvNoKey "laptop" 5 = .error "OPENAI_API_KEY must be set" := by
  decide

/-- C8 (amended): missing credentials are detected per query at call
time — for every non-empty query, an unset (or empty) web-search key
yields the per-query error response, and an unset embedding key makes
`rag_search` raise mid-query once the Chroma client was constructed. -/
theorem c8_midquery_amended (env : WebEnv) (renv : RagEnv) (q : String)
    (k k2 : ℕ) (hq : q ≠ "") (hkey : env.tavilyKey.getD "" = "")
    (hchroma : renv.chromaInit = .ok ()) (hok : renv.openaiKey = none) :
    web_search env q k =
      { query := q, results := [], error := some "WEB_SEARCH_API_KEY not set" } ∧
    rag_search renv q k2 = .error "OPENAI_API_KEY must be set" := by
  constructor
  · unfold web_search
    rw [if_neg hq, if_pos hkey]
  · unfold rag_search
    rw [if_neg hq, hchroma, hok]
    rfl

/-- C8 witness: the amended behaviour at a concrete query and concrete
credential-free environments. -/
theorem c8_midquery_witness :
    ("query" ≠ "" ∧ envNoKey.tavilyKey.getD "" = "" ∧
      ragEnvNoKey.chromaInit = .ok () ∧ ragEnvNoKey.openaiKey = none) ∧
    (web_search envNoKey "query" 3 =
        { query := "query", results := [],
          error := some "WEB_SEARCH_API_KEY not set" } ∧
      rag_search ragEnvNoKey "query" 7 = .error "OPENAI_API_KEY must be set") :=
  ⟨⟨by decide, by decide, rfl, rfl⟩,
    c8_midquery_amended envNoKey ragEnvNoKey "query" 3 7
      (by decide) (by decide) rfl rfl⟩

/-- C9: for every router/planner/retriever/answerer implementation and
query, the pipeline applies only the Router when the routed intent type
is `out_of_scope` (so Planner/Retriever/Answerer are never invoked and
their call counts stay zero), and otherwise continues through Planner,
Retriever and Answerer; the graph's conditional edge agrees. -/
theorem c9_scope_short_circuit
    (router planner retriever answerer : ConvState → ConvState) (q : String) :
    run_agent router planner retriever answerer q =
      (if (router (initState q)).intentType = some "out_of_scope"
        then router (initState q)
        else answerer (retriever (planner (router (initState q))))) ∧
    should_continue_after_router (router (initState q)) =
      (if (router (initState q)).intentType = some "out_of_scope"
        then "end" else "continue") := by
  refine ⟨?_, rfl⟩
  by_cases hc : (router (initState q)).intentType = some "out_of_scope"
  · rw [if_pos hc]
    unfold run_agent
    rw [if_neg (not_not_intro hc)]
  · rw [if_neg hc]
    unfold run_agent
    rw [if_pos hc]

/-- C10: on the empty query both adapters short-circuit: for every
environment (so independently of any collaborator) they return a
response echoing the query with empty results, web search additionally
with a null error. -/
theorem c10_empty_query_short_circuit (envW : WebEnv) (envR : RagEnv)
    (k k2 : ℕ) :
    web_search envW "" k = { query := "", results := [], error := none } ∧
    rag_search envR "" k2 = .ok { query := "", results := [] } :=
  ⟨rfl, rfl⟩

end ProductDiscovery
